import Mathlib

/-!
Verification of the sandboxed code-execution service of DeepAnalyze
(backend/app/sandbox_runner.py, with defaults from backend/app/config.py).

The Python class SandboxRunner is embedded shallowly:
 - the pure helpers (_get_image_for_language, _get_command_for_language,
   _get_file_extension, the timeout defaulting in execute) become Lean
   functions;
 - the effectful body _execute_sync becomes a function from an explicit
   description of the outcomes of every external (Docker / filesystem)
   call — a DockerBehavior — to the returned CodeExecutionResponse
   together with the trace of external events the body performs;
 - cleanup becomes a function on an explicit list of the Docker host's
   containers;
 - the admission control that the code delegates to a fixed-size
   ThreadPoolExecutor is modelled as a bounded scheduler.
-/

/-- Python str.lower, character by character (semantically String.toLower;
written over the character list so that it evaluates in the kernel). -/
def strLower (s : String) : String := ⟨s.data.map Char.toLower⟩

/-- Python str.replace(pat, ""), i.e. remove every occurrence of pat,
with explicit fuel so the recursion is structural. Mirrors the single use
filename.replace(".java", "") in _get_command_for_language. -/
def removeAllAux (pat : List Char) : Nat → List Char → List Char
  | _, [] => []
  | 0, l => l
  | fuel + 1, c :: rest =>
    if pat.isPrefixOf (c :: rest) then removeAllAux pat fuel ((c :: rest).drop pat.length)
    else c :: removeAllAux pat fuel rest

/-- Python filename.replace(pat, ""). -/
def pyRemoveAll (s pat : String) : String := ⟨removeAllAux pat.data s.data.length s.data⟩

/-- The images dict of SandboxRunner._get_image_for_language. -/
def imagesMap : List (String × String) :=
  [("python", "python:3.11-slim"),
   ("javascript", "node:18-alpine"),
   ("typescript", "node:18-alpine"),
   ("java", "openjdk:17-jdk-slim"),
   ("go", "golang:1.21-alpine"),
   ("rust", "rust:1.75-slim"),
   ("ruby", "ruby:3.2-slim"),
   ("php", "php:8.2-cli")]

/-- SandboxRunner._get_image_for_language: dict lookup on language.lower()
with default "python:3.11-slim". -/
def getImageForLanguage (language : String) : String :=
  (imagesMap.lookup (strLower language)).getD "python:3.11-slim"

/-- The commands dict of SandboxRunner._get_command_for_language. -/
def commandsMap (filename : String) : List (String × List String) :=
  [("python", ["python", filename]),
   ("javascript", ["node", filename]),
   ("ruby", ["ruby", filename]),
   ("php", ["php", filename]),
   ("go", ["go", "run", filename])]

/-- SandboxRunner._get_command_for_language: the compiled languages
(rust, java, typescript) get shell commands, everything else goes through
the dict with default ["python", filename]. -/
def getCommandForLanguage (language : String) (filename : String) : List String :=
  if strLower language = "rust" then
    ["/bin/sh", "-c", "rustc " ++ filename ++ " && ./code"]
  else if strLower language = "java" then
    ["/bin/sh", "-c", "javac " ++ filename ++ " && java " ++ pyRemoveAll filename ".java"]
  else if strLower language = "typescript" then
    ["/bin/sh", "-c", "npx --yes ts-node " ++ filename]
  else
    ((commandsMap filename).lookup (strLower language)).getD ["python", filename]

/-- The extensions dict of SandboxRunner._get_file_extension. -/
def extensionsMap : List (String × String) :=
  [("python", ".py"),
   ("javascript", ".js"),
   ("typescript", ".ts"),
   ("java", ".java"),
   ("go", ".go"),
   ("rust", ".rs"),
   ("ruby", ".rb"),
   ("php", ".php")]

/-- SandboxRunner._get_file_extension: dict lookup on language.lower()
with default ".py". -/
def getFileExtension (language : String) : String :=
  (extensionsMap.lookup (strLower language)).getD ".py"

/-- Modelled from the spec: the ExecutionResult value (the repository's
models.py, which declares CodeExecutionResponse, is not among the provided
sources; its four fields are fixed by every constructor call in
sandbox_runner.py: success, output, error, execution_time). The elapsed
times the code computes from the wall clock are abstract naturals here. -/
structure CodeExecutionResponse where
  success : Bool
  output : String
  error : Option String
  execution_time : Nat
  deriving DecidableEq

/-- Outcome of self.client.images.get(image): the image is cached, or the
call raises docker.errors.ImageNotFound (the only exception the code
catches there), or it raises something else. -/
inductive ImageGetOutcome where
  | cached
  | imageNotFound
  | err (msg : String)
  deriving DecidableEq

deriving instance DecidableEq for Except

/-- One call to _execute_sync performs a fixed sequence of external calls;
a DockerBehavior records the outcome each of those calls would have.
.error e stands for the call raising an exception whose str() is e. -/
structure DockerBehavior where
  /-- tempfile.TemporaryDirectory(): fresh directory name, or raises. -/
  tmpName : Except String Nat
  /-- code_file.write_text(code). -/
  writeText : Except String Unit
  /-- self.client.images.get(image). -/
  imagesGet : ImageGetOutcome
  /-- self.client.images.pull(image), attempted only on ImageNotFound. -/
  imagesPull : Except String Unit
  /-- self.client.containers.run(...), detach=True. -/
  containersRun : Except String Unit
  /-- container.wait(timeout=timeout): the StatusCode, or raises
  (in particular on timeout). -/
  containerWait : Except String Nat
  /-- container.logs().decode. -/
  containerLogs : Except String String
  /-- container.remove() on the normal path (line 145). -/
  removeAfterLogs : Except String Unit
  /-- container.stop(timeout=1) in the inner except handler. -/
  stopOnError : Except String Unit
  /-- container.remove() in the inner except handler, attempted only if
  the stop before it did not raise (same try block). -/
  removeOnError : Except String Unit
  /-- value of time.time() - start_time at whichever return is reached. -/
  elapsed : Nat
  deriving DecidableEq

/-- External events _execute_sync performs, in order. Teardown attempts
carry whether the attempt succeeded. -/
inductive Ev where
  | tmpdirCreate (name : Nat)
  | writeCodeFile
  | imageGetCall (image : String)
  | imagePullCall (image : String)
  | containerRunCall (image : String) (command : List String) (mounts : Nat)
  | containerWaitCall (timeout : Int)
  | containerLogsCall
  | containerStopCall (grace : Nat) (ok : Bool)
  | containerRemoveCall (ok : Bool)
  | tmpdirDelete (name : Nat)
  deriving DecidableEq

def isOk (r : Except String Unit) : Bool :=
  match r with
  | .ok _ => true
  | .error _ => false

/-- Number of volume mounts passed to containers.run: the tmpdir always,
plus the optional workspace. -/
def mountCount (workspace : Option String) : Nat :=
  match workspace with
  | some _ => 2
  | none => 1

def failureResponse (e : String) (t : Nat) : CodeExecutionResponse :=
  { success := false, output := "", error := some e, execution_time := t }

/-- The inner except handler of _execute_sync (lines 166-180): try to
stop the container with a one-second grace period and remove it, both
failures swallowed; if the stop raises, the remove is never attempted. -/
def onAwaitError (b : DockerBehavior) : List Ev :=
  match b.stopOnError with
  | .ok _ => [Ev.containerStopCall 1 true, Ev.containerRemoveCall (isOk b.removeOnError)]
  | .error _ => [Ev.containerStopCall 1 false]

/-- The body of the with tempfile.TemporaryDirectory() block of
_execute_sync (lines 104-180). .error e means an exception escaped the
block (to be caught by the outer except after the tmpdir is deleted);
.ok r means the block returned the response r. -/
def withBody (b : DockerBehavior) (language : String) (timeout : Int)
    (workspace : Option String) : Except String CodeExecutionResponse × List Ev :=
  let ext := getFileExtension language
  let filename := "code" ++ ext
  let image := getImageForLanguage language
  let command := getCommandForLanguage language filename
  match b.writeText with
  | .error e => (.error e, [Ev.writeCodeFile])
  | .ok _ =>
    let imgStep : Except String Unit × List Ev :=
      match b.imagesGet with
      | .cached => (.ok (), [Ev.imageGetCall image])
      | .imageNotFound =>
        (b.imagesPull, [Ev.imageGetCall image, Ev.imagePullCall image])
      | .err e => (.error e, [Ev.imageGetCall image])
    match imgStep with
    | (.error e, evs) => (.error e, Ev.writeCodeFile :: evs)
    | (.ok _, evs) =>
      match b.containersRun with
      | .error e =>
        (.error e, Ev.writeCodeFile :: evs
          ++ [Ev.containerRunCall image command (mountCount workspace)])
      | .ok _ =>
        let runEvs := Ev.writeCodeFile :: evs
          ++ [Ev.containerRunCall image command (mountCount workspace)]
        match b.containerWait with
        | .ok status =>
          match b.containerLogs with
          | .ok logs =>
            let evsAll := runEvs ++ [Ev.containerWaitCall timeout, Ev.containerLogsCall,
              Ev.containerRemoveCall (isOk b.removeAfterLogs)]
            if status = 0 then
              (.ok { success := true, output := logs, error := none,
                     execution_time := b.elapsed }, evsAll)
            else
              (.ok { success := false, output := logs,
                     error := some ("Exit code: " ++ toString status),
                     execution_time := b.elapsed }, evsAll)
          | .error e =>
            (.ok (failureResponse ("Execution timeout or error: " ++ e) b.elapsed),
             runEvs ++ [Ev.containerWaitCall timeout, Ev.containerLogsCall]
               ++ onAwaitError b)
        | .error e =>
          (.ok (failureResponse ("Execution timeout or error: " ++ e) b.elapsed),
           runEvs ++ [Ev.containerWaitCall timeout] ++ onAwaitError b)

/-- SandboxRunner._execute_sync. clientAvailable is whether __init__
managed to build the Docker client (self.client is not None). Returns the
response together with the trace of external events. The with-statement
deletes the temporary directory on every exit from the block, before the
outer except handler runs. -/
def executeSync (clientAvailable : Bool) (b : DockerBehavior)
    (code language : String) (timeout : Int) (workspace : Option String) :
    CodeExecutionResponse × List Ev :=
  if clientAvailable then
    match b.tmpName with
    | .error e => (failureResponse e b.elapsed, [])
    | .ok name =>
      match withBody b language timeout workspace with
      | (.ok resp, evs) => (resp, Ev.tmpdirCreate name :: evs ++ [Ev.tmpdirDelete name])
      | (.error e, evs) =>
        (failureResponse e b.elapsed, Ev.tmpdirCreate name :: evs ++ [Ev.tmpdirDelete name])
  else
    ({ success := false, output := "", error := some "Docker client not available",
       execution_time := 0 }, [])

/-- SandboxRunner.__init__: docker.from_env() succeeding gives a client,
an exception leaves self.client = None. -/
def initSandboxRunner (fromEnv : Except String Unit) : Bool :=
  isOk fromEnv

/-- config.Settings.MAX_EXECUTION_TIME (seconds). -/
def MAX_EXECUTION_TIME : Int := 300

/-- The timeout defaulting on entry to SandboxRunner.execute:
timeout = timeout or settings.MAX_EXECUTION_TIME, where a missing
argument is None and Python or treats the int 0 as falsy. -/
def effectiveTimeout (timeout : Option Int) : Int :=
  match timeout with
  | none => MAX_EXECUTION_TIME
  | some v => if v = 0 then MAX_EXECUTION_TIME else v

/-- A container on the Docker host as cleanup sees it. owner records which
service created the container (0 stands for this SandboxRunner instance);
Docker knows it, but the code never filters on it. removeFails says
whether container.remove() would raise for this container. -/
structure DContainer where
  cid : Nat
  status : String
  owner : Nat
  removeFails : Bool
  deriving DecidableEq

/-- self.client.containers.list(all=True, filters={"status": "exited"}):
every container on the host whose status is exited, regardless of owner. -/
def listExited (host : List DContainer) : List DContainer :=
  host.filter fun c => c.status == "exited"

/-- The cleanup for-loop: try container.remove() for each listed
container, swallowing per-container failures (except: pass). Returns the
host state afterwards and the ids actually removed, in order. -/
def removeEach (targets : List DContainer) (host : List DContainer) :
    List DContainer × List Nat :=
  match targets with
  | [] => (host, [])
  | c :: rest =>
    if c.removeFails then removeEach rest host
    else
      let step := removeEach rest (host.filter fun d => !(d.cid == c.cid))
      (step.1, c.cid :: step.2)

/-- The container half of SandboxRunner.cleanup (lines 224-234). The
executor shutdown above it touches no container state. -/
def cleanupContainers (host : List DContainer) : List DContainer × List Nat :=
  removeEach (listExited host) host

/-- Modelled from the spec: tempfile.TemporaryDirectory() allocates a
fresh, uniquely named scratch directory (the tempfile module is outside
this repository); the allocator is a counter-backed name supply returning
the name and the next counter. -/
def allocTmpdir (counter : Nat) : Nat × Nat := (counter, counter + 1)

/-- Modelled from the spec: the ConcurrencyGate (spec 4.3). The code
delegates admission control to ThreadPoolExecutor(max_workers =
settings.SANDBOX_MAX_WORKERS) built in __init__ and used by execute via
run_in_executor; the pool's semantics live outside this repository. A
task is one submitted _execute_sync call: it occupies a slot for
remaining scheduler ticks and may end in an internal engine error
(fails = true), which the pool catches into the Future, so the slot is
released identically. -/
structure GTask where
  tid : Nat
  remaining : Nat
  fails : Bool
  deriving DecidableEq

/-- Scheduler state: tasks waiting for a slot, tasks occupying a slot,
finished tasks. -/
structure GateState where
  queued : List GTask
  running : List GTask
  done : List GTask
  deriving DecidableEq

/-- Admission: move waiting tasks into the free slots, up to capacity K. -/
def fillSlots (K : Nat) (s : GateState) : GateState :=
  { queued := s.queued.drop (K - s.running.length),
    running := s.running ++ s.queued.take (K - s.running.length),
    done := s.done }

/-- One scheduler tick: every running task advances by one; a task whose
remaining work reaches zero leaves its slot and is done, whether or not
it failed. -/
def tickRunning (s : GateState) : GateState :=
  let dec := s.running.map fun tk => { tk with remaining := tk.remaining - 1 }
  { queued := s.queued,
    running := dec.filter fun tk => !(tk.remaining == 0),
    done := s.done ++ dec.filter fun tk => tk.remaining == 0 }

def gateStep (K : Nat) (s : GateState) : GateState :=
  tickRunning (fillSlots K s)

def gateRun (K : Nat) : Nat → GateState → GateState
  | 0, s => s
  | n + 1, s => gateRun K n (gateStep K s)

/-- Termination measure: each queued or running task counts its remaining
work plus one. -/
def gmeasure (s : GateState) : Nat :=
  ((s.queued ++ s.running).map fun tk => tk.remaining + 1).sum

/-- Number of successful container removals in a trace. -/
def removeOkCount (evs : List Ev) : Nat :=
  evs.countP fun e =>
    match e with
    | Ev.containerRemoveCall true => true
    | _ => false

/-- The image-availability step (lines 114-118) completes without an
escaping exception: the image is cached, or the pull after ImageNotFound
succeeds. -/
def imageStageOk (b : DockerBehavior) : Prop :=
  b.imagesGet = ImageGetOutcome.cached ∨
    (b.imagesGet = ImageGetOutcome.imageNotFound ∧ b.imagesPull = Except.ok ())

/-- All steps from directory creation through container start succeed. -/
def startOk (b : DockerBehavior) : Prop :=
  (∃ n, b.tmpName = Except.ok n) ∧ b.writeText = Except.ok () ∧
    imageStageOk b ∧ b.containersRun = Except.ok ()

/-- The first exception, in program order, raised by a non-teardown step
of _execute_sync: directory creation, file write, image get/pull,
container start, await, capture. Teardown calls (stop/remove) are not
consulted: the code swallows their errors. -/
def firstInternalError (b : DockerBehavior) : Option String :=
  match b.tmpName with
  | .error e => some e
  | .ok _ =>
  match b.writeText with
  | .error e => some e
  | .ok _ =>
  match b.imagesGet with
  | .err e => some e
  | .cached =>
    (match b.containersRun with
     | .error e => some e
     | .ok _ =>
     match b.containerWait with
     | .error e => some e
     | .ok _ =>
     match b.containerLogs with
     | .error e => some e
     | .ok _ => none)
  | .imageNotFound =>
    match b.imagesPull with
    | .error e => some e
    | .ok _ =>
    match b.containersRun with
    | .error e => some e
    | .ok _ =>
    match b.containerWait with
    | .error e => some e
    | .ok _ =>
    match b.containerLogs with
    | .error e => some e
    | .ok _ => none

/-- A behavior in which every external call succeeds cleanly. -/
def bAllOk : DockerBehavior :=
  { tmpName := Except.ok 0, writeText := Except.ok (),
    imagesGet := ImageGetOutcome.cached, imagesPull := Except.ok (),
    containersRun := Except.ok (), containerWait := Except.ok 0,
    containerLogs := Except.ok "hello\n", removeAfterLogs := Except.ok (),
    stopOnError := Except.ok (), removeOnError := Except.ok (), elapsed := 1 }

/-- C10: SandboxRunner.execute replaces an omitted (None) or zero timeout
by settings.MAX_EXECUTION_TIME = 300, keeps any positive requested
timeout as given, and therefore can never produce an effective timeout
of zero. -/
theorem execute_timeout_defaulting :
    effectiveTimeout none = 300 ∧ effectiveTimeout (some 0) = 300 ∧
    (∀ v : Int, 0 < v → effectiveTimeout (some v) = v) ∧
    (∀ t : Option Int, effectiveTimeout t ≠ 0) := by
  refine ⟨rfl, rfl, ?_, ?_⟩
  · intro v hv
    simp only [effectiveTimeout]
    rw [if_neg (by omega)]
  · intro t
    match t with
    | none => decide
    | some v =>
      by_cases h : v = 0
      · simp [effectiveTimeout, h, MAX_EXECUTION_TIME]
      · simp [effectiveTimeout, h]

theorem execute_timeout_defaulting_witness :
    (0 : Int) < 7 ∧ effectiveTimeout (some 7) = 7 ∧ effectiveTimeout (some 0) ≠ 0 :=
  ⟨by decide, execute_timeout_defaulting.2.2.1 7 (by decide),
   execute_timeout_defaulting.2.2.2 (some 0)⟩

/-- C7: when docker.from_env() raises in __init__, self.client stays
None, and every subsequent execution short-circuits to a failure result
with error "Docker client not available" and execution_time 0, without
performing a single Docker call (empty event trace). -/
theorem executeSync_unavailable_short_circuit (fromEnv : Except String Unit)
    (e : String) (h : fromEnv = Except.error e) (b : DockerBehavior)
    (code language : String) (t : Int) (w : Option String) :
    executeSync (initSandboxRunner fromEnv) b code language t w =
      ({ success := false, output := "", error := some "Docker client not available",
         execution_time := 0 }, []) := by
  subst h
  rfl

theorem executeSync_unavailable_short_circuit_witness :
    executeSync (initSandboxRunner (Except.error "docker daemon unreachable"))
        bAllOk "print(1)" "python" 300 none =
      ({ success := false, output := "", error := some "Docker client not available",
         execution_time := 0 }, []) :=
  executeSync_unavailable_short_circuit (Except.error "docker daemon unreachable")
    "docker daemon unreachable" rfl bAllOk "print(1)" "python" 300 none

/-- C3: when the container reaches a terminal exit within the timeout and
the logs are captured: exit code 0 gives success=true with the merged
logs as output and no error; a non-zero exit code gives success=false,
the same merged logs, and an error carrying the exit code. -/
theorem executeSync_terminal_exit (b : DockerBehavior) (code language : String)
    (t : Int) (w : Option String) (status : Nat) (logs : String)
    (hs : startOk b) (hw : b.containerWait = Except.ok status)
    (hl : b.containerLogs = Except.ok logs) :
    (status = 0 →
      (executeSync true b code language t w).1 =
        { success := true, output := logs, error := none,
          execution_time := b.elapsed }) ∧
    (status ≠ 0 →
      (executeSync true b code language t w).1 =
        { success := false, output := logs,
          error := some ("Exit code: " ++ toString status),
          execution_time := b.elapsed }) := by
  obtain ⟨⟨n, htmp⟩, hwrite, himg, hrun⟩ := hs
  rcases himg with hc | ⟨hnf, hpull⟩
  · constructor <;> intro h0 <;>
      simp [executeSync, withBody, htmp, hwrite, hrun, hw, hl, h0, hc]
  · constructor <;> intro h0 <;>
      simp [executeSync, withBody, htmp, hwrite, hrun, hw, hl, h0, hnf, hpull]

/-- Behavior for a clean run that exits with code 2 and output. -/
def bExitTwo : DockerBehavior :=
  { bAllOk with containerWait := Except.ok 2, containerLogs := Except.ok "trace\n" }

theorem executeSync_terminal_exit_witness :
    (executeSync true bAllOk "print(1)" "python" 300 none).1 =
      { success := true, output := "hello\n", error := none, execution_time := 1 } ∧
    (executeSync true bExitTwo "boom" "python" 300 none).1 =
      { success := false, output := "trace\n", error := some "Exit code: 2",
        execution_time := 1 } :=
  ⟨(executeSync_terminal_exit bAllOk "print(1)" "python" 300 none 0 "hello\n"
      ⟨⟨0, rfl⟩, rfl, Or.inl rfl, rfl⟩ rfl rfl).1 rfl,
   (executeSync_terminal_exit bExitTwo "boom" "python" 300 none 2 "trace\n"
      ⟨⟨0, rfl⟩, rfl, Or.inl rfl, rfl⟩ rfl rfl).2 (by decide)⟩

/-- The timeout/error marker produced by the inner except handler can
never collide with an exit-code marker: the two literals already differ
at their third character. -/
theorem marker_ne (e t : String) :
    "Execution timeout or error: " ++ e ≠ "Exit code: " ++ t := by
  intro h
  have h2 := congrArg String.data h
  rw [String.data_append, String.data_append] at h2
  have h3 := congrArg (List.take 3) h2
  rw [List.take_append_of_le_length (by decide),
    List.take_append_of_le_length (by decide)] at h3
  exact absurd h3 (by decide)

/-- C4: when container.wait raises (in particular on timeout), the code
force-stops the container with a one-second grace period, removes it, and
returns success=false with an error that names an execution timeout and
can never be mistaken for an exit-code failure. -/
theorem executeSync_timeout_path (b : DockerBehavior) (code language : String)
    (t : Int) (w : Option String) (e : String)
    (hs : startOk b) (hw : b.containerWait = Except.error e)
    (hstop : b.stopOnError = Except.ok ()) (hrm : b.removeOnError = Except.ok ()) :
    (executeSync true b code language t w).1.success = false ∧
    (executeSync true b code language t w).1.error =
      some ("Execution timeout or error: " ++ e) ∧
    (∀ k : Nat, (executeSync true b code language t w).1.error ≠
      some ("Exit code: " ++ toString k)) ∧
    Ev.containerStopCall 1 true ∈ (executeSync true b code language t w).2 ∧
    Ev.containerRemoveCall true ∈ (executeSync true b code language t w).2 := by
  obtain ⟨⟨n, htmp⟩, hwrite, himg, hrun⟩ := hs
  have herr : (executeSync true b code language t w).1.error =
      some ("Execution timeout or error: " ++ e) := by
    rcases himg with hc | ⟨hnf, hpull⟩
    · simp [executeSync, withBody, onAwaitError, failureResponse,
        htmp, hwrite, hrun, hw, hstop, hrm, hc]
    · simp [executeSync, withBody, onAwaitError, failureResponse,
        htmp, hwrite, hrun, hw, hstop, hrm, hnf, hpull]
  refine ⟨?_, herr, ?_, ?_, ?_⟩
  · rcases himg with hc | ⟨hnf, hpull⟩
    · simp [executeSync, withBody, onAwaitError, failureResponse,
        htmp, hwrite, hrun, hw, hstop, hrm, hc]
    · simp [executeSync, withBody, onAwaitError, failureResponse,
        htmp, hwrite, hrun, hw, hstop, hrm, hnf, hpull]
  · intro k hcontra
    rw [herr] at hcontra
    exact marker_ne e (toString k) (Option.some.inj hcontra)
  · rcases himg with hc | ⟨hnf, hpull⟩
    · simp [executeSync, withBody, onAwaitError, isOk,
        htmp, hwrite, hrun, hw, hstop, hrm, hc]
    · simp [executeSync, withBody, onAwaitError, isOk,
        htmp, hwrite, hrun, hw, hstop, hrm, hnf, hpull]
  · rcases himg with hc | ⟨hnf, hpull⟩
    · simp [executeSync, withBody, onAwaitError, isOk,
        htmp, hwrite, hrun, hw, hstop, hrm, hc]
    · simp [executeSync, withBody, onAwaitError, isOk,
        htmp, hwrite, hrun, hw, hstop, hrm, hnf, hpull]

/-- Behavior for a run whose container.wait raises a read timeout. -/
def bWaitTimeout : DockerBehavior :=
  { bAllOk with containerWait := Except.error "Read timed out. (read timeout=1)" }

theorem executeSync_timeout_path_witness :
    (executeSync true bWaitTimeout "while True: pass" "python" 1 none).1.success = false ∧
    (executeSync true bWaitTimeout "while True: pass" "python" 1 none).1.error =
      some "Execution timeout or error: Read timed out. (read timeout=1)" :=
  ⟨(executeSync_timeout_path bWaitTimeout "while True: pass" "python" 1 none
      "Read timed out. (read timeout=1)" ⟨⟨0, rfl⟩, rfl, Or.inl rfl, rfl⟩ rfl rfl rfl).1,
   (executeSync_timeout_path bWaitTimeout "while True: pass" "python" 1 none
      "Read timed out. (read timeout=1)" ⟨⟨0, rfl⟩, rfl, Or.inl rfl, rfl⟩ rfl rfl rfl).2.1⟩

/-- C1: whenever the container is successfully started and the teardown
primitives themselves do not raise, the container is removed exactly once
before _execute_sync returns, on every code path: terminal exit (zero or
non-zero), timeout, and internal error during await or capture. -/
theorem executeSync_removes_container_exactly_once (b : DockerBehavior)
    (code language : String) (t : Int) (w : Option String)
    (hs : startOk b)
    (h1 : b.removeAfterLogs = Except.ok ()) (h2 : b.stopOnError = Except.ok ())
    (h3 : b.removeOnError = Except.ok ()) :
    removeOkCount (executeSync true b code language t w).2 = 1 := by
  obtain ⟨⟨n, htmp⟩, hwrite, himg, hrun⟩ := hs
  rcases hwres : b.containerWait with e | status
  · rcases himg with hc | ⟨hnf, hpull⟩
    · simp [executeSync, withBody, onAwaitError, removeOkCount, isOk,
        htmp, hwrite, hrun, hwres, h1, h2, h3, hc,
        List.countP_cons, List.countP_append]
    · simp [executeSync, withBody, onAwaitError, removeOkCount, isOk,
        htmp, hwrite, hrun, hwres, h1, h2, h3, hnf, hpull,
        List.countP_cons, List.countP_append]
  · rcases hlres : b.containerLogs with el | lg
    · rcases himg with hc | ⟨hnf, hpull⟩
      · simp [executeSync, withBody, onAwaitError, removeOkCount, isOk,
          htmp, hwrite, hrun, hwres, hlres, h1, h2, h3, hc,
          List.countP_cons, List.countP_append]
      · simp [executeSync, withBody, onAwaitError, removeOkCount, isOk,
          htmp, hwrite, hrun, hwres, hlres, h1, h2, h3, hnf, hpull,
          List.countP_cons, List.countP_append]
    · by_cases h0 : status = 0
      · rcases himg with hc | ⟨hnf, hpull⟩
        · simp [executeSync, withBody, onAwaitError, removeOkCount, isOk,
            htmp, hwrite, hrun, hwres, hlres, h0, h1, h2, h3, hc,
            List.countP_cons, List.countP_append]
        · simp [executeSync, withBody, onAwaitError, removeOkCount, isOk,
            htmp, hwrite, hrun, hwres, hlres, h0, h1, h2, h3, hnf, hpull,
            List.countP_cons, List.countP_append]
      · rcases himg with hc | ⟨hnf, hpull⟩
        · simp [executeSync, withBody, onAwaitError, removeOkCount, isOk,
            htmp, hwrite, hrun, hwres, hlres, h0, h1, h2, h3, hc,
            List.countP_cons, List.countP_append]
        · simp [executeSync, withBody, onAwaitError, removeOkCount, isOk,
            htmp, hwrite, hrun, hwres, hlres, h0, h1, h2, h3, hnf, hpull,
            List.countP_cons, List.countP_append]

theorem executeSync_removes_container_exactly_once_witness :
    removeOkCount (executeSync true bWaitTimeout "while True: pass" "python" 1 none).2 = 1 ∧
    removeOkCount (executeSync true bAllOk "print(1)" "python" 300 none).2 = 1 :=
  ⟨executeSync_removes_container_exactly_once bWaitTimeout "while True: pass" "python" 1 none
      ⟨⟨0, rfl⟩, rfl, Or.inl rfl, rfl⟩ rfl rfl rfl,
   executeSync_removes_container_exactly_once bAllOk "print(1)" "python" 300 none
      ⟨⟨0, rfl⟩, rfl, Or.inl rfl, rfl⟩ rfl rfl rfl⟩

/-- Behavior where everything succeeds, the script exits 0, but the
teardown container.remove() on the normal path raises. -/
def bTeardownFail : DockerBehavior :=
  { bAllOk with removeAfterLogs := Except.error "remove failed: conflict" }

/-- C2 counterexample: an internal error raised during teardown is NOT
returned as a failing ExecutionResult. With every other call succeeding
and exit code 0, container.remove() raising leaves success=true and
error=None: the except: pass at lines 146-147 swallows the teardown
error instead of wrapping it. -/
theorem executeSync_teardown_error_swallowed_cex :
    bTeardownFail.removeAfterLogs = Except.error "remove failed: conflict" ∧
    (executeSync true bTeardownFail "print(1)" "python" 300 none).1.success = true ∧
    (executeSync true bTeardownFail "print(1)" "python" 300 none).1.error = none := by
  decide

/-- The response of _execute_sync never depends on the outcomes of the
teardown calls (container.stop / container.remove): their exceptions are
swallowed by bare except handlers. -/
theorem response_ignores_teardown (b : DockerBehavior) (code language : String)
    (t : Int) (w : Option String) (r1 r2 r3 : Except String Unit) :
    (executeSync true
        { b with removeAfterLogs := r1, stopOnError := r2, removeOnError := r3 }
        code language t w).1 =
      (executeSync true b code language t w).1 := by
  rcases htmp : b.tmpName with e0 | n
  · simp [executeSync, htmp]
  · rcases hwrite : b.writeText with e1 | u1
    · simp [executeSync, withBody, htmp, hwrite]
    · rcases himg : b.imagesGet with _ | _ | em
      · rcases hrun : b.containersRun with e2 | u2
        · simp [executeSync, withBody, htmp, hwrite, himg, hrun]
        · rcases hw : b.containerWait with e3 | status
          · simp [executeSync, withBody, onAwaitError, htmp, hwrite, himg, hrun, hw]
          · rcases hl : b.containerLogs with e4 | lg
            · simp [executeSync, withBody, onAwaitError, htmp, hwrite, himg, hrun, hw, hl]
            · by_cases h0 : status = 0 <;>
                simp [executeSync, withBody, htmp, hwrite, himg, hrun, hw, hl, h0]
      · rcases hpull : b.imagesPull with e5 | u5
        · simp [executeSync, withBody, htmp, hwrite, himg, hpull]
        · rcases hrun : b.containersRun with e2 | u2
          · simp [executeSync, withBody, htmp, hwrite, himg, hpull, hrun]
          · rcases hw : b.containerWait with e3 | status
            · simp [executeSync, withBody, onAwaitError, htmp, hwrite, himg, hpull,
                hrun, hw]
            · rcases hl : b.containerLogs with e4 | lg
              · simp [executeSync, withBody, onAwaitError, htmp, hwrite, himg, hpull,
                  hrun, hw, hl]
              · by_cases h0 : status = 0 <;>
                  simp [executeSync, withBody, htmp, hwrite, himg, hpull, hrun, hw, hl, h0]
      · simp [executeSync, withBody, htmp, hwrite, himg]

/-- C2 (amended): any internal error raised during directory creation,
file write, image get/pull, container start, await, or capture is
returned — never thrown — as success=false with the cause in the error
field (verbatim for the steps up to start, prefixed by the timeout/error
marker for await and capture); errors raised by the teardown calls are
swallowed and leave the response unchanged. -/
theorem executeSync_internal_error_wrapped (b : DockerBehavior)
    (code language : String) (t : Int) (w : Option String) (e : String)
    (h : firstInternalError b = some e) :
    ((executeSync true b code language t w).1.success = false ∧
      ((executeSync true b code language t w).1.error = some e ∨
        (executeSync true b code language t w).1.error =
          some ("Execution timeout or error: " ++ e))) ∧
    (∀ r1 r2 r3 : Except String Unit,
      (executeSync true
          { b with removeAfterLogs := r1, stopOnError := r2, removeOnError := r3 }
          code language t w).1 =
        (executeSync true b code language t w).1) := by
  refine ⟨?_, fun r1 r2 r3 => response_ignores_teardown b code language t w r1 r2 r3⟩
  rcases htmp : b.tmpName with e0 | n
  · rw [firstInternalError, htmp] at h
    injection h with h
    subst h
    simp [executeSync, failureResponse, htmp]
  · rw [firstInternalError, htmp] at h
    rcases hwrite : b.writeText with e1 | u1
    · rw [hwrite] at h
      injection h with h
      subst h
      simp [executeSync, withBody, failureResponse, htmp, hwrite]
    · rw [hwrite] at h
      rcases himg : b.imagesGet with _ | _ | em
      · rw [himg] at h
        rcases hrun : b.containersRun with e2 | u2
        · rw [hrun] at h
          injection h with h
          subst h
          simp [executeSync, withBody, failureResponse, htmp, hwrite, himg, hrun]
        · rw [hrun] at h
          rcases hw : b.containerWait with e3 | status
          · rw [hw] at h
            injection h with h
            subst h
            simp [executeSync, withBody, onAwaitError, failureResponse,
              htmp, hwrite, himg, hrun, hw]
          · rw [hw] at h
            rcases hl : b.containerLogs with e4 | lg
            · rw [hl] at h
              injection h with h
              subst h
              simp [executeSync, withBody, onAwaitError, failureResponse,
                htmp, hwrite, himg, hrun, hw, hl]
            · rw [hl] at h
              exact absurd h (by simp)
      · rw [himg] at h
        rcases hpull : b.imagesPull with e5 | u5
        · rw [hpull] at h
          injection h with h
          subst h
          simp [executeSync, withBody, failureResponse, htmp, hwrite, himg, hpull]
        · rw [hpull] at h
          rcases hrun : b.containersRun with e2 | u2
          · rw [hrun] at h
            injection h with h
            subst h
            simp [executeSync, withBody, failureResponse, htmp, hwrite, himg, hpull, hrun]
          · rw [hrun] at h
            rcases hw : b.containerWait with e3 | status
            · rw [hw] at h
              injection h with h
              subst h
              simp [executeSync, withBody, onAwaitError, failureResponse,
                htmp, hwrite, himg, hpull, hrun, hw]
            · rw [hw] at h
              rcases hl : b.containerLogs with e4 | lg
              · rw [hl] at h
                injection h with h
                subst h
                simp [executeSync, withBody, onAwaitError, failureResponse,
                  htmp, hwrite, himg, hpull, hrun, hw, hl]
              · rw [hl] at h
                exact absurd h (by simp)
      · rw [himg] at h
        injection h with h
        subst h
        simp [executeSync, withBody, failureResponse, htmp, hwrite, himg]

/-- Behavior where the image pull fails. -/
def bPullFail : DockerBehavior :=
  { bAllOk with
    imagesGet := ImageGetOutcome.imageNotFound,
    imagesPull := Except.error "pull access denied" }

theorem executeSync_internal_error_wrapped_witness :
    firstInternalError bPullFail = some "pull access denied" ∧
    (executeSync true bPullFail "print(1)" "python" 300 none).1.success = false ∧
    ((executeSync true bPullFail "print(1)" "python" 300 none).1.error =
        some "pull access denied" ∨
      (executeSync true bPullFail "print(1)" "python" 300 none).1.error =
        some ("Execution timeout or error: " ++ "pull access denied")) :=
  ⟨by decide,
   (executeSync_internal_error_wrapped bPullFail "print(1)" "python" 300 none
      "pull access denied" (by decide)).1.1,
   (executeSync_internal_error_wrapped bPullFail "print(1)" "python" 300 none
      "pull access denied" (by decide)).1.2⟩

/-- Whether an event is a lifecycle event of the ephemeral workspace. -/
def isTmpdirEv : Ev → Bool
  | Ev.tmpdirCreate _ => true
  | Ev.tmpdirDelete _ => true
  | _ => false

/-- The body of the with-block never creates or deletes workspace
directories itself: those are exactly the enter/exit of the
with tempfile.TemporaryDirectory() statement. -/
theorem withBody_tmpdir_free (b : DockerBehavior) (language : String) (t : Int)
    (w : Option String) :
    ((withBody b language t w).2.countP isTmpdirEv) = 0 := by
  rcases hwrite : b.writeText with e1 | u1 <;>
  rcases himg : b.imagesGet with _ | _ | em <;>
  rcases hpull : b.imagesPull with e5 | u5 <;>
  rcases hrun : b.containersRun with e2 | u2 <;>
  rcases hw : b.containerWait with e3 | status <;>
  rcases hl : b.containerLogs with e4 | lg <;>
  rcases hstop : b.stopOnError with e6 | u6 <;>
    simp [withBody, onAwaitError, isTmpdirEv, hwrite, himg, hpull, hrun, hw, hl, hstop,
      apply_ite, List.countP_cons, List.countP_append]

/-- C8: every execution that obtains a workspace gets the uniquely
allocated name, the trace opens by creating exactly that directory and
closes by deleting exactly that directory — on success, failure, and
timeout alike, since the behavior b is arbitrary — with no other
workspace event in between; and the allocator (modelled from the spec for
tempfile.TemporaryDirectory) never hands the same name to two
allocations. -/
theorem executeSync_workspace_lifecycle (b : DockerBehavior) (code language : String)
    (t : Int) (w : Option String) (n : Nat) (htmp : b.tmpName = Except.ok n) :
    (∃ mid, (executeSync true b code language t w).2 =
        Ev.tmpdirCreate n :: mid ++ [Ev.tmpdirDelete n] ∧
        mid.countP isTmpdirEv = 0) ∧
    (∀ c : Nat, (allocTmpdir c).1 < (allocTmpdir c).2) ∧
    (∀ c₁ c₂ : Nat, c₁ ≠ c₂ → (allocTmpdir c₁).1 ≠ (allocTmpdir c₂).1) := by
  refine ⟨?_, fun c => Nat.lt_succ_self c, fun c₁ c₂ h => h⟩
  refine ⟨(withBody b language t w).2, ?_, withBody_tmpdir_free b language t w⟩
  rcases hwb : withBody b language t w with ⟨res, evs⟩
  rcases res with e | resp <;> simp [executeSync, htmp, hwb]

theorem executeSync_workspace_lifecycle_witness :
    ∃ mid, (executeSync true bAllOk "print(1)" "python" 300 none).2 =
        Ev.tmpdirCreate 0 :: mid ++ [Ev.tmpdirDelete 0] ∧
        mid.countP isTmpdirEv = 0 :=
  (executeSync_workspace_lifecycle bAllOk "print(1)" "python" 300 none 0 rfl).1

/-- The language tags the catalog supports (the key set shared by the
images and extensions dicts; the commands dict covers the interpreted
subset, the other three get shell commands). -/
def supportedLanguages : List String :=
  ["python", "javascript", "typescript", "java", "go", "rust", "ruby", "php"]

/-- C6: runtime resolution is case-insensitive (it depends only on the
lowercased tag), every supported language resolves to its configured
image, extension and command, and every unmatched tag silently resolves
to the default Python runtime (python:3.11-slim, .py, python invocation)
instead of failing. -/
theorem runtime_resolution_spec :
    (∀ s t : String, strLower s = strLower t →
      getImageForLanguage s = getImageForLanguage t ∧
      getFileExtension s = getFileExtension t ∧
      ∀ f, getCommandForLanguage s f = getCommandForLanguage t f) ∧
    (∀ p ∈ imagesMap, getImageForLanguage p.1 = p.2) ∧
    (∀ p ∈ extensionsMap, getFileExtension p.1 = p.2) ∧
    (∀ f, (commandsMap f).length = 5 ∧
      ∀ p ∈ commandsMap f, getCommandForLanguage p.1 f = p.2) ∧
    (∀ f, getCommandForLanguage "rust" f =
        ["/bin/sh", "-c", "rustc " ++ f ++ " && ./code"] ∧
      getCommandForLanguage "java" f =
        ["/bin/sh", "-c", "javac " ++ f ++ " && java " ++ pyRemoveAll f ".java"] ∧
      getCommandForLanguage "typescript" f =
        ["/bin/sh", "-c", "npx --yes ts-node " ++ f]) ∧
    (∀ lang : String, strLower lang ∉ supportedLanguages →
      getImageForLanguage lang = "python:3.11-slim" ∧
      getFileExtension lang = ".py" ∧
      ∀ f, getCommandForLanguage lang f = ["python", f]) := by
  refine ⟨?_, ?_, ?_, ?_, ?_, ?_⟩
  · intro s t h
    refine ⟨?_, ?_, ?_⟩
    · simp only [getImageForLanguage, h]
    · simp only [getFileExtension, h]
    · intro f
      simp only [getCommandForLanguage, h]
  · decide
  · decide
  · intro f
    refine ⟨rfl, ?_⟩
    intro p hp
    simp only [commandsMap, List.mem_cons, List.not_mem_nil, or_false] at hp
    rcases hp with h | h | h | h | h <;> subst h <;> rfl
  · intro f
    exact ⟨rfl, rfl, rfl⟩
  · intro lang h
    simp only [supportedLanguages, List.mem_cons, List.not_mem_nil, or_false,
      not_or] at h
    obtain ⟨hpy, hjs, hts, hjava, hgo, hrust, hrb, hphp⟩ := h
    have epy : (strLower lang == "python") = false := beq_eq_false_iff_ne.mpr hpy
    have ejs : (strLower lang == "javascript") = false := beq_eq_false_iff_ne.mpr hjs
    have ets : (strLower lang == "typescript") = false := beq_eq_false_iff_ne.mpr hts
    have ejava : (strLower lang == "java") = false := beq_eq_false_iff_ne.mpr hjava
    have ego : (strLower lang == "go") = false := beq_eq_false_iff_ne.mpr hgo
    have erust : (strLower lang == "rust") = false := beq_eq_false_iff_ne.mpr hrust
    have erb : (strLower lang == "ruby") = false := beq_eq_false_iff_ne.mpr hrb
    have ephp : (strLower lang == "php") = false := beq_eq_false_iff_ne.mpr hphp
    refine ⟨?_, ?_, ?_⟩
    · simp [getImageForLanguage, imagesMap, List.lookup,
        epy, ejs, ets, ejava, ego, erust, erb, ephp]
    · simp [getFileExtension, extensionsMap, List.lookup,
        epy, ejs, ets, ejava, ego, erust, erb, ephp]
    · intro f
      simp [getCommandForLanguage, commandsMap, List.lookup,
        hrust, hjava, hts, epy, ejs, erb, ephp, ego]

theorem runtime_resolution_spec_witness :
    (getImageForLanguage "PyThOn" = getImageForLanguage "python" ∧
      getFileExtension "PyThOn" = getFileExtension "python" ∧
      ∀ f, getCommandForLanguage "PyThOn" f = getCommandForLanguage "python" f) ∧
    (getImageForLanguage "cobol" = "python:3.11-slim" ∧
      getFileExtension "cobol" = ".py" ∧
      ∀ f, getCommandForLanguage "cobol" f = ["python", f]) :=
  ⟨runtime_resolution_spec.1 "PyThOn" "python" (by decide),
   runtime_resolution_spec.2.2.2.2.2 "cobol" (by decide)⟩

/-- A container created by some other service (owner 7), exited but not
yet removed. -/
def foreignExited : DContainer :=
  { cid := 1, status := "exited", owner := 7, removeFails := false }

/-- C9 counterexample: cleanup does NOT restrict itself to this service's
managed namespace. containers.list(all=True, filters={"status":
"exited"}) has no ownership filter, so on a host holding one exited
container created by a different service (owner 7), the sweep removes it:
removed ids [1], remaining host empty, although the claim demands it
remove only instances belonging to this service. -/
theorem cleanup_removes_foreign_container_cex :
    foreignExited.owner ≠ 0 ∧
    (cleanupContainers [foreignExited]).2 = [1] ∧
    (cleanupContainers [foreignExited]).1 = [] := by
  decide

/-- The ids a sweep removes are exactly those of the targets whose
removal succeeds, independent of the host list. -/
theorem removeEach_removed_ids (targets host : List DContainer) :
    (removeEach targets host).2 =
      (targets.filter fun c => !c.removeFails).map fun c => c.cid := by
  induction targets generalizing host with
  | nil => rfl
  | cons c rest ih =>
    by_cases hf : c.removeFails <;>
      simp [removeEach, List.filter_cons, hf, ih]

/-- The host state after a sweep: exactly the containers whose id was not
removed survive. -/
theorem removeEach_host_state (targets host : List DContainer) :
    (removeEach targets host).1 =
      host.filter fun d =>
        !(((targets.filter fun c => !c.removeFails).map fun c => c.cid).contains d.cid) := by
  induction targets generalizing host with
  | nil => simp [removeEach]
  | cons c rest ih =>
    by_cases hf : c.removeFails
    · simp [removeEach, List.filter_cons, hf, ih]
    · simp only [removeEach, List.filter_cons, hf, Bool.not_false, if_pos, ih,
        List.filter_filter, List.map_cons]
      refine List.filter_congr ?_
      intro d _
      simp [List.contains_cons, Bool.not_or, Bool.and_comm]

/-- C9 (amended): cleanup removes exactly the containers on the Docker
host whose status is exited and whose removal succeeds — regardless of
which service created them, since the listing carries no namespace or
ownership filter; a failure to remove one instance is swallowed and does
not abort removal of the others; and a sweep with nothing exited changes
no container state, so two successive sweeps with nothing pending are
both no-ops. -/
theorem cleanup_sweep_characterization (host : List DContainer) :
    (cleanupContainers host).2 =
      (((listExited host).filter fun c => !c.removeFails).map fun c => c.cid) ∧
    (cleanupContainers host).1 =
      (host.filter fun d =>
        !((((listExited host).filter fun c => !c.removeFails).map fun c => c.cid).contains
          d.cid)) ∧
    (listExited host = [] →
      cleanupContainers host = (host, []) ∧
      cleanupContainers (cleanupContainers host).1 = (host, [])) := by
  refine ⟨removeEach_removed_ids _ _, removeEach_host_state _ _, ?_⟩
  intro h
  have h1 : cleanupContainers host = (host, []) := by
    simp [cleanupContainers, h, removeEach]
  refine ⟨h1, ?_⟩
  rw [h1]
  exact h1

/-- A host with one removable exited container of this service, one
exited container whose removal raises, and one still running. -/
def hostSample : List DContainer :=
  [{ cid := 1, status := "exited", owner := 0, removeFails := false },
   { cid := 2, status := "exited", owner := 0, removeFails := true },
   { cid := 3, status := "running", owner := 0, removeFails := false }]

theorem cleanup_sweep_characterization_witness :
    (cleanupContainers hostSample).2 = [1] ∧
    listExited ([] : List DContainer) = [] ∧
    cleanupContainers ([] : List DContainer) = ([], []) :=
  ⟨(cleanup_sweep_characterization hostSample).1.trans (by decide), by decide,
   ((cleanup_sweep_characterization []).2.2 rfl).1⟩

/-- Weight of a task list: remaining work plus one per task. -/
def taskWeight (l : List GTask) : Nat :=
  (l.map fun tk => tk.remaining + 1).sum

theorem taskWeight_append (a b : List GTask) :
    taskWeight (a ++ b) = taskWeight a + taskWeight b := by
  simp [taskWeight]

theorem gmeasure_eq (s : GateState) :
    gmeasure s = taskWeight s.queued + taskWeight s.running := by
  simp [gmeasure, taskWeight]

theorem taskWeight_eq_zero (l : List GTask) (h : taskWeight l = 0) : l = [] := by
  cases l with
  | nil => rfl
  | cons tk rest => simp [taskWeight] at h

theorem fillSlots_le (K : Nat) (s : GateState) (h : s.running.length ≤ K) :
    (fillSlots K s).running.length ≤ K := by
  simp [fillSlots, List.length_take]
  omega

theorem tickRunning_le (s : GateState) :
    (tickRunning s).running.length ≤ s.running.length := by
  simp only [tickRunning]
  exact le_trans (List.length_filter_le _ _) (by simp)

theorem gateStep_le (K : Nat) (s : GateState) (h : s.running.length ≤ K) :
    (gateStep K s).running.length ≤ K :=
  le_trans (tickRunning_le _) (fillSlots_le K s h)

theorem gateRun_le (K : Nat) (n : Nat) (s : GateState) (h : s.running.length ≤ K) :
    (gateRun K n s).running.length ≤ K := by
  induction n generalizing s with
  | zero => exact h
  | succ n ih => exact ih _ (gateStep_le K s h)

theorem fillSlots_admits (K : Nat) (s : GateState) (h1 : s.running.length < K)
    (h2 : s.queued ≠ []) : s.running.length < (fillSlots K s).running.length := by
  have hq : 0 < s.queued.length := List.length_pos.mpr h2
  simp [fillSlots, List.length_take]
  omega

theorem length_filter_not_add (l : List GTask) (p : GTask → Bool) :
    (l.filter fun a => !(p a)).length + (l.filter p).length = l.length := by
  induction l with
  | nil => rfl
  | cons a r ih => by_cases h : p a <;> simp [List.filter_cons, h] <;> omega

theorem gateStep_conserved (K : Nat) (s : GateState) :
    (gateStep K s).queued.length + (gateStep K s).running.length +
      (gateStep K s).done.length =
    s.queued.length + s.running.length + s.done.length := by
  have h := length_filter_not_add
    (((fillSlots K s).running.map fun tk => { tk with remaining := tk.remaining - 1 }))
    (fun tk => tk.remaining == 0)
  simp only [List.length_map] at h
  simp [gateStep, tickRunning, fillSlots, List.length_take, List.length_drop] at *
  omega

theorem gateRun_conserved (K : Nat) (n : Nat) (s : GateState) :
    (gateRun K n s).queued.length + (gateRun K n s).running.length +
      (gateRun K n s).done.length =
    s.queued.length + s.running.length + s.done.length := by
  induction n generalizing s with
  | zero => rfl
  | succ n ih => exact (ih (gateStep K s)).trans (gateStep_conserved K s)

theorem taskWeight_tick (l : List GTask) :
    taskWeight ((l.map fun tk => { tk with remaining := tk.remaining - 1 }).filter
      fun tk => !(tk.remaining == 0)) + l.length ≤ taskWeight l := by
  induction l with
  | nil => simp [taskWeight]
  | cons tk rest ih =>
    by_cases h : tk.remaining - 1 = 0
    · have hcond : (!({ tk with remaining := tk.remaining - 1 } : GTask).remaining == 0)
          = false := by simp [h]
      simp only [List.map_cons, List.filter_cons, hcond]
      simp only [Bool.false_eq_true, if_false, taskWeight, List.map_cons, List.sum_cons,
        List.length_cons] at *
      omega
    · have hcond : (!({ tk with remaining := tk.remaining - 1 } : GTask).remaining == 0)
          = true := by simp [h]
      simp only [List.map_cons, List.filter_cons, hcond]
      simp only [if_true, taskWeight, List.map_cons, List.sum_cons,
        List.length_cons] at *
      omega

theorem gmeasure_fillSlots (K : Nat) (s : GateState) :
    gmeasure (fillSlots K s) = gmeasure s := by
  have h := congrArg taskWeight (List.take_append_drop (K - s.running.length) s.queued)
  rw [taskWeight_append] at h
  simp [gmeasure_eq, fillSlots, taskWeight_append]
  omega

theorem fillSlots_nonempty (K : Nat) (s : GateState) (hK : 1 ≤ K)
    (hne : s.queued.length ≠ 0 ∨ s.running.length ≠ 0) :
    1 ≤ (fillSlots K s).running.length := by
  simp [fillSlots, List.length_take]
  rcases hne with h | h <;> omega

theorem gmeasure_gateStep_lt (K : Nat) (s : GateState) (hK : 1 ≤ K)
    (hne : s.queued.length ≠ 0 ∨ s.running.length ≠ 0) :
    gmeasure (gateStep K s) < gmeasure s := by
  have h1 := taskWeight_tick (fillSlots K s).running
  have h2 := gmeasure_fillSlots K s
  have h3 := fillSlots_nonempty K s hK hne
  have h4 : gmeasure (gateStep K s) =
      taskWeight (fillSlots K s).queued +
        taskWeight (((fillSlots K s).running.map
          fun tk => { tk with remaining := tk.remaining - 1 }).filter
          fun tk => !(tk.remaining == 0)) := by
    simp [gateStep, tickRunning, gmeasure_eq]
  have h5 : gmeasure (fillSlots K s) =
      taskWeight (fillSlots K s).queued + taskWeight (fillSlots K s).running :=
    gmeasure_eq _
  omega

theorem gateStep_empty (K : Nat) (s : GateState) (hq : s.queued = [])
    (hr : s.running = []) :
    (gateStep K s).queued = [] ∧ (gateStep K s).running = [] := by
  simp [gateStep, fillSlots, tickRunning, hq, hr]

theorem gateRun_empty (K : Nat) (n : Nat) (s : GateState) (hq : s.queued = [])
    (hr : s.running = []) :
    (gateRun K n s).queued = [] ∧ (gateRun K n s).running = [] := by
  induction n generalizing s with
  | zero => exact ⟨hq, hr⟩
  | succ n ih =>
    obtain ⟨h1, h2⟩ := gateStep_empty K s hq hr
    exact ih _ h1 h2

theorem gateRun_drains (K : Nat) (hK : 1 ≤ K) :
    ∀ n s, gmeasure s ≤ n →
      (gateRun K n s).queued = [] ∧ (gateRun K n s).running = [] := by
  intro n
  induction n with
  | zero =>
    intro s h
    have h0 : gmeasure s = 0 := Nat.le_zero.mp h
    rw [gmeasure_eq] at h0
    exact ⟨taskWeight_eq_zero s.queued (by omega), taskWeight_eq_zero s.running (by omega)⟩
  | succ n ih =>
    intro s h
    by_cases hemp : s.queued.length = 0 ∧ s.running.length = 0
    · exact gateRun_empty K (n + 1) s (List.length_eq_zero.mp hemp.1)
        (List.length_eq_zero.mp hemp.2)
    · have hne : s.queued.length ≠ 0 ∨ s.running.length ≠ 0 := by tauto
      have hlt := gmeasure_gateStep_lt K s hK hne
      exact ih (gateStep K s) (by omega)

theorem tickRunning_releases (s : GateState) (h : ∀ tk ∈ s.running, tk.remaining ≤ 1) :
    (tickRunning s).running = [] := by
  simp only [tickRunning]
  rw [List.filter_eq_nil_iff]
  intro a ha
  obtain ⟨tk, htk, rfl⟩ := List.mem_map.mp ha
  have := h tk htk
  simp
  omega

/-- C5 (ConcurrencyGate, modelled from the spec since the code delegates
admission to ThreadPoolExecutor(max_workers=K)): with capacity K ≥ 1 and
any finite batch of requests, (i) at no instant do more than K tasks
occupy slots; (ii) whenever a slot is free and a request waits, admission
strictly grows the running set; (iii) a task whose work is finished
leaves its slot at the next tick whether or not it failed, so failure
cannot leak a slot; (iv) within gmeasure steps the queue and the running
set drain and the done set holds all N requests. -/
theorem gate_bounded_and_complete (K : Nat) (hK : 1 ≤ K) (tasks : List GTask) :
    (∀ n : Nat,
      (gateRun K n { queued := tasks, running := [], done := [] }).running.length ≤ K) ∧
    (∀ s : GateState, s.running.length < K → s.queued ≠ [] →
      s.running.length < (fillSlots K s).running.length) ∧
    (∀ s : GateState, (∀ tk ∈ s.running, tk.remaining ≤ 1) →
      (tickRunning s).running = []) ∧
    ((gateRun K (gmeasure { queued := tasks, running := [], done := [] })
        { queued := tasks, running := [], done := [] }).queued = [] ∧
      (gateRun K (gmeasure { queued := tasks, running := [], done := [] })
        { queued := tasks, running := [], done := [] }).running = [] ∧
      (gateRun K (gmeasure { queued := tasks, running := [], done := [] })
        { queued := tasks, running := [], done := [] }).done.length = tasks.length) := by
  refine ⟨fun n => gateRun_le K n _ (by simp),
    fun s h1 h2 => fillSlots_admits K s h1 h2,
    fun s h => tickRunning_releases s h, ?_⟩
  obtain ⟨hq, hr⟩ := gateRun_drains K hK
    (gmeasure { queued := tasks, running := [], done := [] })
    { queued := tasks, running := [], done := [] } le_rfl
  refine ⟨hq, hr, ?_⟩
  have hcons := gateRun_conserved K
    (gmeasure { queued := tasks, running := [], done := [] })
    { queued := tasks, running := [], done := [] }
  rw [hq, hr] at hcons
  simp at hcons
  exact hcons

/-- Three requests for a gate of capacity two, one ending in an internal
engine error. -/
def gateTasks : List GTask :=
  [{ tid := 1, remaining := 1, fails := false },
   { tid := 2, remaining := 2, fails := true },
   { tid := 3, remaining := 1, fails := false }]

theorem gate_bounded_and_complete_witness :
    (1 ≤ 2) ∧
    (gateRun 2 (gmeasure { queued := gateTasks, running := [], done := [] })
        { queued := gateTasks, running := [], done := [] }).done.length
      = gateTasks.length ∧
    gateTasks.length = 3 :=
  ⟨by decide, (gate_bounded_and_complete 2 (by decide) gateTasks).2.2.2.2.2, by decide⟩
